import Mathlib

/-!
Shallow embedding of the core request/response plumbing of the
tiktok-business-api-sdk Go client library, together with theorems about
the behaviour of that plumbing.

Embedding conventions:
* JSON documents are modelled by the inductive type `Json`; the Go
  standard-library function `json.Marshal` is modelled by `encodeJson`,
  which reproduces the byte-exact output of `encoding/json` (including
  its HTML escaping of the characters `<`, `>` and `&`, and its
  `\u00XX` escaping of control characters).
* `url.Values` is modelled by `Values`, an association list with
  map-like `set`/`get` operations (`Set` replaces any previous entry for
  the key; `get` returns `none` when the key is absent).
* Go pointers used for optionality are modelled by `Option`; the Go
  `int64` type is modelled by `Int` (no arithmetic is performed on these
  values anywhere in the embedded code, so overflow cannot arise).
* The one HTTP round trip inside `Client.doRequest` (URL assembly,
  header attachment, body write, status/body read) is abstracted by a
  `WireResult` argument standing for the outcome of that round trip:
  a transport error, a request-construction error, an envelope-decode
  error, or a decoded response envelope.  Everything from the decoded
  envelope onwards is embedded faithfully from the source.
* A Go function returning `(*Response, error)` is modelled as returning
  `Option GoReturn`, where `GoReturn` records both components of the Go
  return value and the outer `none` marks a runtime panic (the only
  panic reachable in the embedded code is the nil-pointer dereference of
  `apiResp.Message` in `doRequest`).
* Client methods additionally return the `Client` value they finished
  with, mirroring that Go methods receive `*Client` and could in
  principle mutate it; the frame theorems show they do not.
-/

namespace TikTokSDK

/-- JSON values.  Numbers are modelled as integers: every number
produced or consumed by the embedded code paths is an integer
(`strconv.FormatInt` output, struct fields of type `int64`). -/
inductive Json where
  | null
  | bool (b : Bool)
  | num (n : Int)
  | str (s : String)
  | arr (elems : List Json)
  | obj (fields : List (String × Json))
deriving Repr

/-- Lower-case hexadecimal digit, as used by `encoding/json` in `\u00XX`
escape sequences. -/
def hexDigit (n : Nat) : Char :=
  if n < 10 then Char.ofNat (48 + n) else Char.ofNat (87 + n)

/-- Escape of a single character inside a JSON string literal, exactly as
performed by Go `encoding/json` with its default HTML escaping: `"` and
`\` get a backslash escape, `<`, `>`, `&` and the control characters
below U+0020 become `\u00XX` (except `\n`, `\r`, `\t` which use their
short forms), and U+2028/U+2029 become ` `/` `. -/
def escapeChar (c : Char) : List Char :=
  if c = '"' then ['\\', '"']
  else if c = '\\' then ['\\', '\\']
  else if c = '<' ∨ c = '>' ∨ c = '&' then
    ['\\', 'u', '0', '0', hexDigit (c.toNat / 16), hexDigit (c.toNat % 16)]
  else if c = '\n' then ['\\', 'n']
  else if c = '\r' then ['\\', 'r']
  else if c = '\t' then ['\\', 't']
  else if c.toNat < 32 then
    ['\\', 'u', '0', '0', hexDigit (c.toNat / 16), hexDigit (c.toNat % 16)]
  else if c.toNat = 8232 ∨ c.toNat = 8233 then
    ['\\', 'u', '2', '0', '2', hexDigit (c.toNat % 16)]
  else [c]

/-- Go `encoding/json` rendering of a string literal, quotes included. -/
def encodeGoString (s : String) : String :=
  "\"" ++ String.mk (s.data.map escapeChar).flatten ++ "\""

mutual

/-- Model of `json.Marshal` on `Json` values: the exact compact textual
rendering produced by Go `encoding/json` (no added whitespace, object
fields in declaration order). -/
def encodeJson : Json → String
  | .null => "null"
  | .bool b => if b then "true" else "false"
  | .num n => toString n
  | .str s => encodeGoString s
  | .arr xs => "[" ++ encodeJsonItems xs ++ "]"
  | .obj fs => "\x7b" ++ encodeJsonFields fs ++ "\x7d"

/-- Comma-separated rendering of JSON array elements. -/
def encodeJsonItems : List Json → String
  | [] => ""
  | [x] => encodeJson x
  | x :: y :: xs => encodeJson x ++ "," ++ encodeJsonItems (y :: xs)

/-- Comma-separated rendering of JSON object fields. -/
def encodeJsonFields : List (String × Json) → String
  | [] => ""
  | [(k, v)] => encodeGoString k ++ ":" ++ encodeJson v
  | (k, v) :: f :: fs =>
      encodeGoString k ++ ":" ++ encodeJson v ++ "," ++ encodeJsonFields (f :: fs)

end

/-- Model of Go `url.Values`: a string-keyed map of query parameters,
represented as an association list.  Only `Set`-style updates occur in
the source, so every key holds at most one value. -/
def Values := List (String × String)

/-- The empty parameter map (`url.Values` literal in the source). -/
def Values.empty : Values := []

/-- Model of `url.Values.Set`: replace any existing entry for `key` by
the single value `v`. -/
def Values.set (ps : Values) (key v : String) : Values :=
  ps.filter (fun p => p.1 ≠ key) ++ [(key, v)]

/-- Lookup of a query parameter.  `none` models key absence (Go map has
no entry), which is distinct from presence with an empty string. -/
def Values.get (ps : Values) (key : String) : Option String :=
  (ps.find? (fun p => p.1 = key)).map Prod.snd

/-- Model of `tiktok.PaginationParams` (helpers.go): two optional
`int64` fields, pointer-optionality modelled by `Option`. -/
structure PaginationParams where
  Page : Option Int
  PageSize : Option Int

/-- The first conditional of `AddPagination`: set `page` when the
`Page` pointer is non-nil (`strconv.FormatInt(v, 10)` is the decimal
rendering, `toString` on `Int`). -/
def addPageParam (params : Values) (page : Option Int) : Values :=
  match page with
  | some v => params.set "page" (toString v)
  | none => params

/-- The second conditional of `AddPagination`: set `page_size` when the
`PageSize` pointer is non-nil. -/
def addPageSizeParam (params : Values) (pageSize : Option Int) : Values :=
  match pageSize with
  | some v => params.set "page_size" (toString v)
  | none => params

/-- Embedding of `AddPagination` (helpers.go lines 12-22).  The Go
function mutates `params` through a pointer; the embedding returns the
updated map.  The `*PaginationParams` argument is `Option`-typed so the
`pagination == nil` early return is represented. -/
def AddPagination (params : Values) (pagination : Option PaginationParams) : Values :=
  match pagination with
  | none => params
  | some pg => addPageSizeParam (addPageParam params pg.Page) pg.PageSize

/-- The dynamic value passed as the `interface\x7b\x7d` argument of
`AddJSONParam`:
* `nil` is the untyped nil interface (the `value == nil` check);
* `strSlice` is a value of dynamic type `[]string` (the type assertion
  `value.([]string)`), a nil Go slice being `strSlice []`;
* `other` is any other value, represented by the result of marshalling
  it: `Except.ok j` when `json.Marshal` succeeds with document `j`
  (e.g. a non-nil `*Filtering` pointer yields the struct object, a typed
  nil pointer yields `Json.null`), `Except.error e` when it fails. -/
inductive GoValue where
  | nil
  | strSlice (xs : List String)
  | other (marshalResult : Except String Json)

/-- Embedding of `AddJSONParam` (helpers.go lines 25-47): skip on nil
interface, skip on empty `[]string`, marshal, fail wrapped on marshal
error, skip when the marshalled text is `null`, otherwise set the
parameter to the marshalled text. -/
def AddJSONParam (params : Values) (key : String) (value : GoValue) : Except String Values :=
  match value with
  | .nil => .ok params
  | .strSlice xs =>
      if xs.length = 0 then .ok params
      else
        -- marshalling a non-nil []string cannot fail
        let s := encodeJson (.arr (xs.map .str))
        if s = "null" then .ok params else .ok (params.set key s)
  | .other (.error e) => .error ("failed to marshal " ++ key ++ ": " ++ e)
  | .other (.ok j) =>
      let s := encodeJson j
      if s = "null" then .ok params else .ok (params.set key s)

/-- Embedding of `AddStringSlice` (helpers.go lines 50-55): return
immediately on an empty slice, otherwise delegate to `AddJSONParam` with
the slice as dynamic value. -/
def AddStringSlice (params : Values) (key : String) (values : List String) : Except String Values :=
  if values.length = 0 then .ok params
  else AddJSONParam params key (.strSlice values)

/-- Embedding of the response envelope `Response` (common.go): all four
fields optional (`omitempty` pointers / `json.RawMessage`).  `Data`
models the raw payload bytes: `none` is an absent or empty
`RawMessage`, `some j` a payload holding document `j`. -/
structure Response where
  Code : Option Int
  Message : Option String
  RequestID : Option String
  Data : Option Json

/-- Embedding of `ErrorResponse` (common.go): the structured application
error built from a non-zero envelope code. -/
structure ErrorResponse where
  Code : Int
  Message : String
  RequestID : String

/-- A Go `error` value produced by the embedded code: either an ordinary
(possibly wrapped) error identified by its message, or a structured
`*ErrorResponse`. -/
inductive GoError where
  | wrapped (msg : String)
  | api (e : ErrorResponse)

/-- The `Error()` string of a `GoError` (for `ErrorResponse` the source
returns `e.Message`). -/
def GoError.errorMessage : GoError → String
  | .wrapped s => s
  | .api e => e.Message

/-- Model of `*http.Client`: the only configuration the source ever sets
is the timeout, kept in nanoseconds (`time.Duration`). -/
structure HTTPClient where
  TimeoutNanos : Int
deriving Repr

/-- Embedding of `Client` (client.go): base URL, HTTP client and access
token, all fixed at construction. -/
structure Client where
  baseURL : String
  httpClient : HTTPClient
  accessToken : String
deriving Repr

/-- Production API host (client.go line 24). -/
def productionBaseURL : String := "https://business-api.tiktok.com"

/-- Sandbox API host (client.go line 28). -/
def sandboxBaseURL : String := "https://sandbox-ads.tiktok.com"

/-- The default HTTP client built by the constructors: 30-second
timeout. -/
def defaultHTTPClient : HTTPClient := { TimeoutNanos := 30 * 1000000000 }

/-- Embedding of `NewClient` (client.go lines 23-38).  `getenv` models
`os.Getenv` (total, returning the empty string for unset variables). -/
def NewClient (getenv : String → String) (accessToken : String) : Client :=
  let baseURL :=
    if getenv "TIKTOK_AD_IS_SANDBOX" = "true" then sandboxBaseURL
    else productionBaseURL
  { baseURL := baseURL, httpClient := defaultHTTPClient, accessToken := accessToken }

/-- Embedding of `NewClientWithConfig` (client.go lines 41-55): a nil
HTTP client is replaced by the 30-second-timeout default, an empty base
URL by the production host; any other supplied override is kept. -/
def NewClientWithConfig (accessToken baseURL : String) (httpClient : Option HTTPClient) : Client :=
  let hc :=
    match httpClient with
    | none => defaultHTTPClient
    | some hc => hc
  let url := if baseURL = "" then productionBaseURL else baseURL
  { baseURL := url, httpClient := hc, accessToken := accessToken }

/-- Outcome of the HTTP round trip performed inside `doRequest`,
abstracting `http.NewRequestWithContext` + `httpClient.Do` +
`io.ReadAll` + `json.Unmarshal` of the body:
* `createError`: `http.NewRequestWithContext` failed;
* `transportError`: `httpClient.Do` or `io.ReadAll` failed;
* `decodeError`: the body did not unmarshal into `Response`;
* `envelope`: the decoded response envelope. -/
inductive WireResult where
  | createError (msg : String)
  | transportError (msg : String)
  | decodeError (msg : String)
  | envelope (resp : Response)

/-- Both components of a Go `(*Response, error)` return value. -/
structure GoReturn where
  resp : Option Response
  err : Option GoError

/-- The marshalled request body handed to `doRequest`: `none` when the
`body` argument is nil, otherwise the result of `json.Marshal(body)`. -/
def bodyMarshalOk : Option (Except String Json) → Bool
  | some (.error _) => false
  | _ => true

/-- Embedding of `Client.doRequest` (client.go lines 58-121) from the
body-marshalling step onwards.  The returned pair carries the client
value after the call (the source never assigns to any field, so it is
returned unchanged) and the Go return value, `none` marking the
nil-pointer-dereference panic of `*apiResp.Message` that happens when
the envelope carries a non-zero code but no message field. -/
def doRequest (c : Client) (method path : String) (queryParams : Values)
    (body : Option (Except String Json)) (wire : WireResult) :
    Client × Option GoReturn :=
  match body with
  | some (.error e) =>
      (c, some { resp := none, err := some (.wrapped ("failed to marshal request body: " ++ e)) })
  | _ =>
      match wire with
      | .createError e =>
          (c, some { resp := none, err := some (.wrapped ("failed to create request: " ++ e)) })
      | .transportError e =>
          (c, some { resp := none, err := some (.wrapped ("failed to execute request: " ++ e)) })
      | .decodeError e =>
          (c, some { resp := none, err := some (.wrapped ("failed to unmarshal response: " ++ e)) })
      | .envelope apiResp =>
          match apiResp.Code with
          | some code =>
              if code ≠ 0 then
                match apiResp.Message with
                | none => (c, none)
                | some msg =>
                    let rid :=
                      match apiResp.RequestID with
                      | some rid => rid
                      | none => ""
                    (c, some { resp := some apiResp,
                               err := some (.api { Code := code, Message := msg, RequestID := rid }) })
              else (c, some { resp := some apiResp, err := none })
          | none => (c, some { resp := some apiResp, err := none })

/-- Embedding of `Client.Get` (client.go lines 124-126). -/
def Client.Get (c : Client) (path : String) (queryParams : Values) (wire : WireResult) :
    Client × Option GoReturn :=
  doRequest c "GET" path queryParams none wire

/-- Embedding of `Client.Post` (client.go lines 129-131). -/
def Client.Post (c : Client) (path : String) (queryParams : Values)
    (body : Option (Except String Json)) (wire : WireResult) :
    Client × Option GoReturn :=
  doRequest c "POST" path queryParams body wire

/-- Embedding of `Client.Put` (client.go lines 134-136). -/
def Client.Put (c : Client) (path : String) (queryParams : Values)
    (body : Option (Except String Json)) (wire : WireResult) :
    Client × Option GoReturn :=
  doRequest c "PUT" path queryParams body wire

/-- Embedding of `Client.Delete` (client.go lines 139-141). -/
def Client.Delete (c : Client) (path : String) (queryParams : Values) (wire : WireResult) :
    Client × Option GoReturn :=
  doRequest c "DELETE" path queryParams none wire

/-- Embedding of the generic `DoGet[T]` helper (helpers.go lines 62-74).
The Go type parameter `T` and the reflection-driven
`json.Unmarshal(resp.Data, result)` are modelled by an explicit decoding
function `decodeData`.  An absent `Data` payload makes `json.Unmarshal`
fail with `unexpected end of JSON input`.  `none` propagates a panic
from the client layer. -/
def DoGet (T : Type) (decodeData : Json → Except String T) (c : Client)
    (path : String) (params : Values) (wire : WireResult) :
    Option (Except GoError T) :=
  match (Client.Get c path params wire).2 with
  | none => none
  | some gr =>
      match gr.err with
      | some e => some (.error e)
      | none =>
          match gr.resp with
          | none => none
          | some resp =>
              match resp.Data with
              | none => some (.error (.wrapped "failed to unmarshal response: unexpected end of JSON input"))
              | some d =>
                  match decodeData d with
                  | .error e => some (.error (.wrapped ("failed to unmarshal response: " ++ e)))
                  | .ok t => some (.ok t)

/-- Embedding of the generic `DoPost[T]` helper (helpers.go lines 77-87):
identical to `DoGet` but issuing a POST with a body and nil query
parameters. -/
def DoPost (T : Type) (decodeData : Json → Except String T) (c : Client)
    (path : String) (body : Option (Except String Json)) (wire : WireResult) :
    Option (Except GoError T) :=
  match (Client.Post c path Values.empty body wire).2 with
  | none => none
  | some gr =>
      match gr.err with
      | some e => some (.error e)
      | none =>
          match gr.resp with
          | none => none
          | some resp =>
              match resp.Data with
              | none => some (.error (.wrapped "failed to unmarshal response: unexpected end of JSON input"))
              | some d =>
                  match decodeData d with
                  | .error e => some (.error (.wrapped ("failed to unmarshal response: " ++ e)))
                  | .ok t => some (.ok t)

/-- Embedding of `campaign.Filtering` (campaign/campaign.go lines
51-59): all fields optional via `omitempty` JSON tags; the slice field
is `[]string` (a nil slice and an empty slice are indistinguishable to
`len` and to `omitempty`, so both are `[]`). -/
structure Filtering where
  CampaignIDs : List String
  CampaignName : Option String
  ObjectiveType : Option String
  PrimaryStatus : Option String
  SecondaryStatus : Option String
  CreateTimeMin : Option String
  CreateTimeMax : Option String
deriving Repr, DecidableEq

/-- Object field emitted for an optional `*string` struct field with an
`omitempty` tag: nothing when nil, one field otherwise. -/
def optStrField (key : String) : Option String → List (String × Json)
  | none => []
  | some s => [(key, .str s)]

/-- The object fields emitted when marshalling a `Filtering` value:
fields in declaration order, `omitempty` dropping the empty slice and
nil pointers. -/
def filteringFields (f : Filtering) : List (String × Json) :=
  (if f.CampaignIDs.length = 0 then []
   else [("campaign_ids", Json.arr (f.CampaignIDs.map .str))]) ++
  optStrField "campaign_name" f.CampaignName ++
  optStrField "objective_type" f.ObjectiveType ++
  optStrField "primary_status" f.PrimaryStatus ++
  optStrField "secondary_status" f.SecondaryStatus ++
  optStrField "create_time_min" f.CreateTimeMin ++
  optStrField "create_time_max" f.CreateTimeMax

/-- Model of `json.Marshal` applied to a `Filtering` value. -/
def filteringToJson (f : Filtering) : Json :=
  .obj (filteringFields f)

/-- First value bound to a key in a decoded JSON object (the keys in
play are pairwise distinct, so first-match lookup agrees with Go). -/
def jsonField (fields : List (String × Json)) (key : String) : Option Json :=
  (fields.find? (fun p => p.1 = key)).map Prod.snd

/-- Model of `json.Unmarshal` into a `[]string` destination: a JSON
array of strings (JSON `null` leaves the slice nil). -/
def decodeStringList : Json → Except String (List String)
  | .null => .ok []
  | .arr xs =>
      xs.mapM (fun x =>
        match x with
        | .str s => Except.ok s
        | _ => Except.error "cannot unmarshal value into string")
  | _ => .error "cannot unmarshal value into string slice"

/-- Model of `json.Unmarshal` of an object field into a `*string`
destination: absent or `null` leaves the pointer nil. -/
def decodeOptStrField (fields : List (String × Json)) (key : String) :
    Except String (Option String) :=
  match jsonField fields key with
  | none => .ok none
  | some .null => .ok none
  | some (.str s) => .ok (some s)
  | some _ => .error "cannot unmarshal value into string"

/-- Model of `json.Unmarshal` of a JSON document into a `Filtering`
destination (the mock-server side of the round-trip property): start
from the zero value and fill each tagged field from the object. -/
def decodeFiltering (j : Json) : Except String Filtering :=
  match j with
  | .obj fields => do
      let ids ←
        match jsonField fields "campaign_ids" with
        | none => Except.ok []
        | some v => decodeStringList v
      let name ← decodeOptStrField fields "campaign_name"
      let objective ← decodeOptStrField fields "objective_type"
      let primary ← decodeOptStrField fields "primary_status"
      let secondary ← decodeOptStrField fields "secondary_status"
      let tmin ← decodeOptStrField fields "create_time_min"
      let tmax ← decodeOptStrField fields "create_time_max"
      Except.ok { CampaignIDs := ids, CampaignName := name, ObjectiveType := objective,
                  PrimaryStatus := primary, SecondaryStatus := secondary,
                  CreateTimeMin := tmin, CreateTimeMax := tmax }
  | _ => .error "cannot unmarshal value into Filtering"

/-- Embedding of `file.VideoInfo` (file package).  The `float64` field
`Duration` and the dynamically typed field `PreviewURLExpireTime` are
carried as their decoded JSON documents: the source never computes with
them, it only stores what the wire delivered. -/
structure VideoInfo where
  VideoID : String
  FileName : String
  Format : String
  Width : Int
  Height : Int
  Duration : Json
  Size : Int
  MaterialID : String
  PosterURL : String
  PreviewURL : String
  PreviewURLExpireTime : Json
  BitRate : Int
  AllowDownload : Bool
  AllowedPlacements : List String
  CreateTime : String
  ModifyTime : String

/-- Embedding of `file.GetVideoInfoResponse`. -/
structure GetVideoInfoResponse where
  List : List VideoInfo

/-- Embedding of `file.GetVideoInfoRequest`. -/
structure GetVideoInfoRequest where
  AdvertiserID : String
  VideoIDs : List String

/-- Embedding of `file.ImageInfo`. -/
structure ImageInfo where
  ImageID : String
  FileName : String
  Format : String
  Width : Int
  Height : Int
  Size : Int
  MaterialID : String
  ImageURL : String
  Signature : String
  AllowedPlacements : List String
  CreateTime : String
  ModifyTime : String

/-- Embedding of `file.GetImageInfoResponse`. -/
structure GetImageInfoResponse where
  List : List ImageInfo

/-- Embedding of `file.GetImageInfoRequest`. -/
structure GetImageInfoRequest where
  AdvertiserID : String
  ImageIDs : List String

/-- Embedding of `file.API.GetVideoInfo`: validate the ID count locally
(empty and more-than-60 are rejected before anything touches the
network, which is why the result of those branches ignores `wire`),
then build the query and delegate to `DoGet`, wrapping any error from
it.  The reflection-driven decoding of the `data` payload into
`GetVideoInfoResponse` is a parameter, as in `DoGet`. -/
def GetVideoInfo (decodeResp : Json → Except String GetVideoInfoResponse)
    (c : Client) (req : GetVideoInfoRequest) (wire : WireResult) :
    Option (Except GoError GetVideoInfoResponse) :=
  if req.VideoIDs.length = 0 then
    some (.error (.wrapped "video_ids cannot be empty"))
  else if req.VideoIDs.length > 60 then
    some (.error (.wrapped "video_ids cannot exceed 60 items"))
  else
    let params := Values.set Values.empty "advertiser_id" req.AdvertiserID
    match AddStringSlice params "video_ids" req.VideoIDs with
    | .error e => some (.error (.wrapped e))
    | .ok params =>
        match DoGet GetVideoInfoResponse decodeResp c "/open_api/v1.3/file/video/ad/info/" params wire with
        | none => none
        | some (.error e) =>
            some (.error (.wrapped ("failed to get video info: " ++ GoError.errorMessage e)))
        | some (.ok resp) => some (.ok resp)

/-- Embedding of `file.API.GetImageInfo`: same shape as `GetVideoInfo`
with the 100-element limit on `image_ids`. -/
def GetImageInfo (decodeResp : Json → Except String GetImageInfoResponse)
    (c : Client) (req : GetImageInfoRequest) (wire : WireResult) :
    Option (Except GoError GetImageInfoResponse) :=
  if req.ImageIDs.length = 0 then
    some (.error (.wrapped "image_ids cannot be empty"))
  else if req.ImageIDs.length > 100 then
    some (.error (.wrapped "image_ids cannot exceed 100 items"))
  else
    let params := Values.set Values.empty "advertiser_id" req.AdvertiserID
    match AddStringSlice params "image_ids" req.ImageIDs with
    | .error e => some (.error (.wrapped e))
    | .ok params =>
        match DoGet GetImageInfoResponse decodeResp c "/open_api/v1.3/file/image/ad/info/" params wire with
        | none => none
        | some (.error e) =>
            some (.error (.wrapped ("failed to get image info: " ++ GoError.errorMessage e)))
        | some (.ok resp) => some (.ok resp)

/-!
A JSON parser, modelling the decode half of the round-trip property:
the mock server of the test suite receives the query-parameter text and
runs a standard JSON decode on it.  The parser consumes compact JSON
(no inter-token whitespace), which is exactly the format the encoder
emits; numbers are read as integers, the only numeric form the encoder
produces.  Recursion is bounded by an explicit fuel argument; the
public entry point `parseJson` supplies more fuel than any input can
consume. -/

/-- Value of one hexadecimal digit character. -/
def parseHexDigit (c : Char) : Option Nat :=
  if '0' ≤ c ∧ c ≤ '9' then some (c.toNat - 48)
  else if 'a' ≤ c ∧ c ≤ 'f' then some (c.toNat - 87)
  else if 'A' ≤ c ∧ c ≤ 'F' then some (c.toNat - 55)
  else none

/-- Parse the body of a JSON string literal after its opening quote,
unescaping as it goes; returns the decoded characters and the input
remaining after the closing quote.  Each step consumes at least one
input character, so fuel exceeding the input length never runs out. -/
def parseStringBody : Nat → List Char → Option (List Char × List Char)
  | 0, _ => none
  | _ + 1, [] => none
  | fuel + 1, c :: cs =>
      if c = '"' then some ([], cs)
      else if c = '\\' then
        match cs with
        | [] => none
        | e :: cs2 =>
            if e = '"' then (parseStringBody fuel cs2).map (fun r => ('"' :: r.1, r.2))
            else if e = '\\' then (parseStringBody fuel cs2).map (fun r => ('\\' :: r.1, r.2))
            else if e = '/' then (parseStringBody fuel cs2).map (fun r => ('/' :: r.1, r.2))
            else if e = 'b' then (parseStringBody fuel cs2).map (fun r => ('\x08' :: r.1, r.2))
            else if e = 'f' then (parseStringBody fuel cs2).map (fun r => ('\x0c' :: r.1, r.2))
            else if e = 'n' then (parseStringBody fuel cs2).map (fun r => ('\n' :: r.1, r.2))
            else if e = 'r' then (parseStringBody fuel cs2).map (fun r => ('\r' :: r.1, r.2))
            else if e = 't' then (parseStringBody fuel cs2).map (fun r => ('\t' :: r.1, r.2))
            else if e = 'u' then
              match cs2 with
              | h1 :: h2 :: h3 :: h4 :: cs3 =>
                  match parseHexDigit h1, parseHexDigit h2, parseHexDigit h3, parseHexDigit h4 with
                  | some d1, some d2, some d3, some d4 =>
                      (parseStringBody fuel cs3).map (fun r =>
                        (Char.ofNat (d1 * 4096 + d2 * 256 + d3 * 16 + d4) :: r.1, r.2))
                  | _, _, _, _ => none
              | _ => none
            else none
      else (parseStringBody fuel cs).map (fun r => (c :: r.1, r.2))

/-- Parse a non-empty run of decimal digits into a natural number. -/
def parseDigits : List Char → Option (Nat × List Char)
  | [] => none
  | c :: cs =>
      if c.isDigit then
        match parseDigits cs with
        | some (n, rest) =>
            some ((c.toNat - 48) * 10 ^ (cs.length - rest.length) + n, rest)
        | none => some (c.toNat - 48, cs)
      else none

mutual

/-- Parse one JSON value from the input, returning it with the
remaining input.  `fuel` bounds the recursion depth. -/
def parseValueAux : Nat → List Char → Option (Json × List Char)
  | 0, _ => none
  | _ + 1, [] => none
  | fuel + 1, c :: cs =>
      if c = '"' then
        (parseStringBody (cs.length + 1) cs).map (fun r => (.str (String.mk r.1), r.2))
      else if c = '[' then
        match cs with
        | ']' :: cs2 => some (.arr [], cs2)
        | _ => (parseItemsAux fuel cs).map (fun r => (.arr r.1, r.2))
      else if c = '\x7b' then
        match cs with
        | '\x7d' :: cs2 => some (.obj [], cs2)
        | _ => (parseFieldsAux fuel cs).map (fun r => (.obj r.1, r.2))
      else if c = 't' then
        match cs with
        | 'r' :: 'u' :: 'e' :: cs2 => some (.bool true, cs2)
        | _ => none
      else if c = 'f' then
        match cs with
        | 'a' :: 'l' :: 's' :: 'e' :: cs2 => some (.bool false, cs2)
        | _ => none
      else if c = 'n' then
        match cs with
        | 'u' :: 'l' :: 'l' :: cs2 => some (.null, cs2)
        | _ => none
      else if c = '-' then
        (parseDigits cs).map (fun r => (.num (-(r.1 : Int)), r.2))
      else if c.isDigit then
        (parseDigits (c :: cs)).map (fun r => (.num (r.1 : Int), r.2))
      else none

/-- Parse the elements of a non-empty JSON array after its opening
bracket, up to and including the closing bracket. -/
def parseItemsAux : Nat → List Char → Option (List Json × List Char)
  | 0, _ => none
  | fuel + 1, input =>
      (parseValueAux fuel input).bind (fun r =>
        match r.2 with
        | ',' :: cs2 => (parseItemsAux fuel cs2).map (fun r2 => (r.1 :: r2.1, r2.2))
        | ']' :: cs2 => some ([r.1], cs2)
        | _ => none)

/-- Parse the fields of a non-empty JSON object after its opening
brace, up to and including the closing brace. -/
def parseFieldsAux : Nat → List Char → Option (List (String × Json) × List Char)
  | 0, _ => none
  | fuel + 1, input =>
      match input with
      | '"' :: cs =>
          (parseStringBody (cs.length + 1) cs).bind (fun rk =>
            match rk.2 with
            | ':' :: cs2 =>
                (parseValueAux fuel cs2).bind (fun rv =>
                  match rv.2 with
                  | ',' :: cs3 =>
                      (parseFieldsAux fuel cs3).map (fun rf =>
                        ((String.mk rk.1, rv.1) :: rf.1, rf.2))
                  | '\x7d' :: cs3 => some ([(String.mk rk.1, rv.1)], cs3)
                  | _ => none)
            | _ => none)
      | _ => none

end

/-- Parse a complete JSON document: the whole input must be consumed.
The fuel `s.length + 1` dominates the recursion depth of any parse of
`s`. -/
def parseJson (s : String) : Option Json :=
  match parseValueAux (s.length + 1) s.data with
  | some (j, []) => some j
  | _ => none

/-- Values whose JSON rendering the round-trip proof tracks: strings
and arrays of strings — the only shapes a `Filtering` object contains. -/
def FlatVal : Json → Prop
  | .str _ => True
  | .arr xs => ∀ x ∈ xs, ∃ s, x = .str s
  | _ => False

/-- Fuel sufficient for `parseValueAux` to parse the rendering of a
flat value. -/
def flatWeight : Json → Nat
  | .arr xs => xs.length + 2
  | _ => 2

/-- Fuel sufficient for `parseFieldsAux` to parse the rendering of an
object whose field values are flat. -/
def fieldsWeight : List (String × Json) → Nat
  | [] => 1
  | (_, v) :: fs => flatWeight v + 1 + fieldsWeight fs

/-- Fixture: the error envelope served by the mock server in
`TestClient_Get_Error` (client_test.go). -/
def errEnvelopeFixture : Response :=
  { Code := some 40000, Message := some "Invalid request",
    RequestID := some "request-456", Data := none }

/-- Fixture: a client built the way the tests build one. -/
def clientFixture : Client :=
  NewClientWithConfig "test-token" "https://example.test" none

/-! Helper lemmas about the `Values` map model. -/

theorem values_get_set_self (ps : Values) (k v : String) :
    Values.get (Values.set ps k v) k = some v := by
  unfold Values.get Values.set
  rw [List.find?_append]
  have h1 : (ps.filter (fun p => p.1 ≠ k)).find? (fun p => p.1 = k) = none := by
    rw [List.find?_eq_none]
    intro x hx
    rcases List.mem_filter.mp hx with ⟨-, hx2⟩
    simp only [decide_eq_true_eq] at hx2 ⊢
    exact hx2
  rw [h1]
  simp

theorem values_get_set_ne (ps : Values) (k k' v : String) (h : k' ≠ k) :
    Values.get (Values.set ps k v) k' = Values.get ps k' := by
  unfold Values.get Values.set
  rw [List.find?_append]
  have h2 : List.find? (fun p => decide (p.1 = k')) [(k, v)] = none := by
    simp [List.find?, Ne.symm h]
  rw [h2, Option.or_none, List.find?_filter]
  have h3 : (fun (a : String × String) =>
        decide (decide (a.1 ≠ k) = true ∧ decide (a.1 = k') = true)) =
      fun (a : String × String) => decide (a.1 = k') := by
    funext a
    by_cases ha : a.1 = k'
    · simp [ha, h]
    · simp [ha]
  rw [h3]

/-! Helper lemmas about the JSON encoder. -/

theorem encodeJson_arr_ne_null (xs : List Json) : encodeJson (Json.arr xs) ≠ "null" := by
  intro h
  have h2 := congrArg String.data h
  simp only [encodeJson, String.data_append] at h2
  cases h2

theorem encodeJson_obj_ne_null (fs : List (String × Json)) :
    encodeJson (Json.obj fs) ≠ "null" := by
  intro h
  have h2 := congrArg String.data h
  simp only [encodeJson, String.data_append] at h2
  cases h2

theorem decodeStringList_map_str (xs : List String) :
    decodeStringList (Json.arr (xs.map Json.str)) = Except.ok xs := by
  induction xs with
  | nil => rfl
  | cons x xs ih =>
      simp only [decodeStringList, List.map_cons, List.mapM_cons] at ih ⊢
      rw [ih]
      rfl

theorem addStringSlice_nonempty (params : Values) (key : String) (values : List String)
    (h : values ≠ []) :
    AddStringSlice params key values =
      Except.ok (params.set key (encodeJson (Json.arr (values.map Json.str)))) := by
  have hlen : ¬ values.length = 0 := by
    cases values with
    | nil => exact absurd rfl h
    | cons a l => simp
  unfold AddStringSlice AddJSONParam
  rw [if_neg hlen]
  simp only
  rw [if_neg hlen, if_neg (encodeJson_arr_ne_null (values.map Json.str))]

/-- C3: for every non-empty string slice, `AddStringSlice` sets the
given query parameter to exactly the literal JSON array encoding of the
slice (element order preserved, as `map` preserves order); for the
empty slice it leaves the parameter map untouched, so the key stays
absent rather than becoming present with an empty value. -/
theorem addStringSlice_json_array_or_absent (params : Values) (key : String)
    (values : List String) :
    (values ≠ [] →
       AddStringSlice params key values =
         Except.ok (params.set key (encodeJson (Json.arr (values.map Json.str)))) ∧
       Values.get (params.set key (encodeJson (Json.arr (values.map Json.str)))) key =
         some (encodeJson (Json.arr (values.map Json.str)))) ∧
    (values = [] →
       AddStringSlice params key values = Except.ok params ∧
       (Values.get params key = none →
          ∃ ps, AddStringSlice params key values = Except.ok ps ∧ Values.get ps key = none)) := by
  constructor
  · intro hne
    have hlen : ¬ values.length = 0 := by
      cases values with
      | nil => exact absurd rfl hne
      | cons a l => simp
    constructor
    · exact addStringSlice_nonempty params key values hne
    · exact values_get_set_self params key _
  · intro he
    subst he
    exact ⟨rfl, fun hget => ⟨params, rfl, hget⟩⟩

theorem addStringSlice_json_array_or_absent_witness :
    AddStringSlice Values.empty "video_ids" ["a", "b"] =
      Except.ok (Values.set Values.empty "video_ids" "[\"a\",\"b\"]") ∧
    Values.get (Values.set Values.empty "video_ids" "[\"a\",\"b\"]") "video_ids" =
      some "[\"a\",\"b\"]" ∧
    AddStringSlice Values.empty "video_ids" [] = Except.ok Values.empty ∧
    Values.get Values.empty "video_ids" = none := by
  have h := addStringSlice_json_array_or_absent Values.empty "video_ids" ["a", "b"]
  have h0 := addStringSlice_json_array_or_absent Values.empty "video_ids" []
  have hne : (["a", "b"] : List String) ≠ [] := by decide
  have henc : encodeJson (Json.arr ((["a", "b"] : List String).map Json.str)) = "[\"a\",\"b\"]" := rfl
  refine ⟨?_, ?_, ?_, rfl⟩
  · have := (h.1 hne).1
    rw [henc] at this
    exact this
  · have := (h.1 hne).2
    rw [henc] at this
    exact this
  · exact (h0.2 rfl).1

/-- C4: `AddPagination` sets `page` exactly when the `Page` pointer is
non-nil (to the decimal rendering of its value) and `page_size` exactly
when `PageSize` is non-nil; a nil `PaginationParams` pointer or a nil
field pointer leaves the corresponding parameter exactly as it was (in
particular absent when it was absent). -/
theorem addPagination_sets_exactly_supplied_fields (params : Values)
    (pg : Option PaginationParams) :
    (pg = none → AddPagination params pg = params) ∧
    (∀ pp, pg = some pp →
       ((∀ n, pp.Page = some n →
           Values.get (AddPagination params pg) "page" = some (toString n)) ∧
        (pp.Page = none →
           Values.get (AddPagination params pg) "page" = Values.get params "page") ∧
        (∀ n, pp.PageSize = some n →
           Values.get (AddPagination params pg) "page_size" = some (toString n)) ∧
        (pp.PageSize = none →
           Values.get (AddPagination params pg) "page_size" = Values.get params "page_size"))) := by
  constructor
  · intro h
    subst h
    rfl
  · intro pp hpp
    subst hpp
    have hne : ("page" : String) ≠ "page_size" := by decide
    have hne2 : ("page_size" : String) ≠ "page" := by decide
    refine ⟨?_, ?_, ?_, ?_⟩
    · intro n hn
      rcases hSize : pp.PageSize with - | m
      · simp only [AddPagination, addPageParam, addPageSizeParam, hn, hSize]
        exact values_get_set_self _ _ _
      · simp only [AddPagination, addPageParam, addPageSizeParam, hn, hSize]
        rw [values_get_set_ne _ _ _ _ hne]
        exact values_get_set_self _ _ _
    · intro hn
      rcases hSize : pp.PageSize with - | m
      · simp only [AddPagination, addPageParam, addPageSizeParam, hn, hSize]
      · simp only [AddPagination, addPageParam, addPageSizeParam, hn, hSize]
        exact values_get_set_ne _ _ _ _ hne
    · intro m hm
      rcases hPage : pp.Page with - | n <;>
        simp only [AddPagination, addPageParam, addPageSizeParam, hm, hPage] <;>
        exact values_get_set_self _ _ _
    · intro hm
      rcases hPage : pp.Page with - | n
      · simp only [AddPagination, addPageParam, addPageSizeParam, hm, hPage]
      · simp only [AddPagination, addPageParam, addPageSizeParam, hm, hPage]
        exact values_get_set_ne _ _ _ _ hne2

theorem addPagination_sets_exactly_supplied_fields_witness :
    Values.get (AddPagination Values.empty (some { Page := some 2, PageSize := none })) "page" =
      some "2" ∧
    Values.get (AddPagination Values.empty (some { Page := some 2, PageSize := none })) "page_size" =
      none ∧
    AddPagination Values.empty none = Values.empty := by
  have h := addPagination_sets_exactly_supplied_fields Values.empty
      (some { Page := some 2, PageSize := none })
  have h0 := addPagination_sets_exactly_supplied_fields Values.empty none
  refine ⟨(h.2 _ rfl).1 2 rfl, ?_, h0.1 rfl⟩
  have := (h.2 _ rfl).2.2.2 rfl
  rw [this]
  rfl

/-- C5: `AddJSONParam` skips emission (returning ok with the map
untouched) when the value is the nil interface, an empty string slice,
or marshals to the literal text `null`; otherwise it sets the parameter
to the JSON encoding of the value; a marshal failure returns the
wrapped error without setting anything. -/
theorem addJSONParam_emission_cases (params : Values) (key : String) (value : GoValue) :
    (value = .nil → AddJSONParam params key value = .ok params) ∧
    (value = .strSlice [] → AddJSONParam params key value = .ok params) ∧
    (∀ j, value = .other (.ok j) → encodeJson j = "null" →
       AddJSONParam params key value = .ok params) ∧
    (∀ xs, value = .strSlice xs → xs ≠ [] →
       AddJSONParam params key value =
         .ok (params.set key (encodeJson (Json.arr (xs.map Json.str))))) ∧
    (∀ j, value = .other (.ok j) → encodeJson j ≠ "null" →
       AddJSONParam params key value = .ok (params.set key (encodeJson j))) ∧
    (∀ e, value = .other (.error e) →
       AddJSONParam params key value =
         .error ("failed to marshal " ++ key ++ ": " ++ e)) := by
  refine ⟨?_, ?_, ?_, ?_, ?_, ?_⟩
  · intro h; subst h; rfl
  · intro h; subst h; rfl
  · intro j h hnull
    subst h
    simp only [AddJSONParam]
    rw [if_pos hnull]
  · intro xs h hne
    subst h
    have hlen : ¬ xs.length = 0 := by
      cases xs with
      | nil => exact absurd rfl hne
      | cons a l => simp
    simp only [AddJSONParam]
    rw [if_neg hlen, if_neg (encodeJson_arr_ne_null (xs.map Json.str))]
  · intro j h hnull
    subst h
    simp only [AddJSONParam]
    rw [if_neg hnull]
  · intro e h
    subst h
    rfl

theorem addJSONParam_emission_cases_witness :
    AddJSONParam Values.empty "filtering" .nil = .ok Values.empty ∧
    AddJSONParam Values.empty "filtering" (.strSlice []) = .ok Values.empty ∧
    AddJSONParam Values.empty "filtering" (.other (.ok .null)) = .ok Values.empty ∧
    AddJSONParam Values.empty "filtering" (.strSlice ["x"]) =
      .ok (Values.set Values.empty "filtering" "[\"x\"]") ∧
    AddJSONParam Values.empty "filtering" (.other (.ok (.bool true))) =
      .ok (Values.set Values.empty "filtering" "true") ∧
    AddJSONParam Values.empty "filtering" (.other (.error "boom")) =
      .error "failed to marshal filtering: boom" := by
  have h := addJSONParam_emission_cases Values.empty "filtering"
  refine ⟨(h .nil).1 rfl, (h (.strSlice [])).2.1 rfl,
          (h (.other (.ok .null))).2.2.1 .null rfl rfl, ?_, ?_,
          (h (.other (.error "boom"))).2.2.2.2.2 "boom" rfl⟩
  · have := (h (.strSlice ["x"])).2.2.2.1 ["x"] rfl (by decide)
    rw [this]
    rfl
  · have := (h (.other (.ok (.bool true)))).2.2.2.2.1 (.bool true) rfl (by decide)
    rw [this]
    rfl

theorem doRequest_fst (c : Client) (method path : String) (qp : Values)
    (body : Option (Except String Json)) (wire : WireResult) :
    (doRequest c method path qp body wire).1 = c := by
  unfold doRequest
  repeat' split
  all_goals rfl

/-- C1 counterexample: on the error envelope of the client test suite,
`doRequest` hands the decoded envelope back alongside the structured
error (the Go source reads `return &apiResp, errResp`), so the claim
that no envelope value accompanies the error fails. -/
theorem doRequest_error_withholds_envelope_counterexample :
    (doRequest clientFixture "GET" "/test/path" Values.empty none
        (.envelope errEnvelopeFixture)).2 =
      some { resp := some errEnvelopeFixture,
             err := some (.api { Code := 40000, Message := "Invalid request",
                                 RequestID := "request-456" }) } ∧
    ¬ (∀ gr : GoReturn,
         (doRequest clientFixture "GET" "/test/path" Values.empty none
             (.envelope errEnvelopeFixture)).2 = some gr →
           gr.err.isSome = true → gr.resp = none) := by
  refine ⟨rfl, ?_⟩
  intro hall
  have h := hall
      { resp := some errEnvelopeFixture,
        err := some (.api { Code := 40000, Message := "Invalid request",
                            RequestID := "request-456" }) } rfl rfl
  exact Option.noConfusion h

/-- C1 (amended): for every decoded envelope whose code and message
fields are present with a non-zero code, `doRequest` — and hence the
verb methods `Get`, `Post`, `Put`, `Delete`, which delegate to it —
returns a structured error exposing exactly that code, that message and
the request id (empty when the envelope has none); the decoded envelope
is returned alongside the error rather than withheld. -/
theorem doRequest_nonzero_code_structured_error (c : Client) (method path : String)
    (qp : Values) (body : Option (Except String Json)) (env : Response)
    (code : Int) (msg : String)
    (hb : bodyMarshalOk body = true) (hcode : env.Code = some code) (h0 : code ≠ 0)
    (hmsg : env.Message = some msg) :
    (doRequest c method path qp body (.envelope env)).2 =
      some { resp := some env,
             err := some (.api { Code := code, Message := msg,
                                 RequestID := env.RequestID.getD "" }) } ∧
    (∀ wire, Client.Get c path qp wire = doRequest c "GET" path qp none wire) ∧
    (∀ wire body2, Client.Post c path qp body2 wire = doRequest c "POST" path qp body2 wire) ∧
    (∀ wire body2, Client.Put c path qp body2 wire = doRequest c "PUT" path qp body2 wire) ∧
    (∀ wire, Client.Delete c path qp wire = doRequest c "DELETE" path qp none wire) := by
  refine ⟨?_, fun _ => rfl, fun _ _ => rfl, fun _ _ => rfl, fun _ => rfl⟩
  obtain ⟨oc, om, orid, od⟩ := env
  simp only at hcode hmsg
  subst hcode
  subst hmsg
  rcases body with - | b
  · simp only [doRequest]
    rw [if_pos h0]
    rcases orid with - | rid <;> rfl
  · rcases b with e | j
    · simp [bodyMarshalOk] at hb
    · simp only [doRequest]
      rw [if_pos h0]
      rcases orid with - | rid <;> rfl

theorem doRequest_nonzero_code_structured_error_witness :
    (doRequest clientFixture "POST" "/test/path" Values.empty (some (.ok (.str "b")))
        (.envelope errEnvelopeFixture)).2 =
      some { resp := some errEnvelopeFixture,
             err := some (.api { Code := 40000, Message := "Invalid request",
                                 RequestID := "request-456" }) } := by
  have h := doRequest_nonzero_code_structured_error clientFixture "POST" "/test/path"
      Values.empty (some (.ok (.str "b"))) errEnvelopeFixture 40000 "Invalid request"
      rfl rfl (by decide) rfl
  exact h.1

/-- C9: in the error branch of `doRequest` the message pointer is
dereferenced without a nil check, so an envelope with a present non-zero
code and no message field panics (modelled by `none`) instead of
producing a structured error; with the message present the call
returns, and — `RequestID` being guarded — an absent request id is
replaced by the empty string rather than dereferenced. -/
theorem doRequest_message_deref_unsafe (c : Client) (method path : String)
    (qp : Values) (body : Option (Except String Json)) (env : Response) (code : Int)
    (hb : bodyMarshalOk body = true) (hcode : env.Code = some code) (h0 : code ≠ 0) :
    (env.Message = none →
       (doRequest c method path qp body (.envelope env)).2 = none) ∧
    (∀ msg, env.Message = some msg →
       (doRequest c method path qp body (.envelope env)).2 =
         some { resp := some env,
                err := some (.api { Code := code, Message := msg,
                                    RequestID := env.RequestID.getD "" }) }) := by
  obtain ⟨oc, om, orid, od⟩ := env
  simp only at hcode
  subst hcode
  constructor
  · intro hm
    simp only at hm
    subst hm
    rcases body with - | b
    · simp only [doRequest]
      rw [if_pos h0]
    · rcases b with e | j
      · simp [bodyMarshalOk] at hb
      · simp only [doRequest]
        rw [if_pos h0]
  · intro msg hm
    simp only at hm
    subst hm
    rcases body with - | b
    · simp only [doRequest]
      rw [if_pos h0]
      rcases orid with - | rid <;> rfl
    · rcases b with e | j
      · simp [bodyMarshalOk] at hb
      · simp only [doRequest]
        rw [if_pos h0]
        rcases orid with - | rid <;> rfl

theorem doRequest_message_deref_unsafe_witness :
    (doRequest clientFixture "GET" "/test/path" Values.empty none
        (.envelope { Code := some 40000, Message := none,
                     RequestID := some "request-456", Data := none })).2 = none ∧
    (doRequest clientFixture "GET" "/test/path" Values.empty none
        (.envelope errEnvelopeFixture)).2 =
      some { resp := some errEnvelopeFixture,
             err := some (.api { Code := 40000, Message := "Invalid request",
                                 RequestID := "request-456" }) } := by
  have h1 := doRequest_message_deref_unsafe clientFixture "GET" "/test/path"
      Values.empty none
      { Code := some 40000, Message := none, RequestID := some "request-456", Data := none }
      40000 rfl rfl (by decide)
  have h2 := doRequest_message_deref_unsafe clientFixture "GET" "/test/path"
      Values.empty none errEnvelopeFixture 40000 rfl rfl (by decide)
  exact ⟨h1.1 rfl, h2.2 "Invalid request" rfl⟩

/-- C2: on a success envelope (`code = 0`) carrying a data payload, the
generic `DoGet` and `DoPost` helpers return exactly the decoding of
that payload into the caller-supplied result type, with no
transformation by the client. -/
theorem doGet_doPost_return_decoded_data (T : Type) (decodeData : Json → Except String T)
    (c : Client) (path : String) (params : Values) (body : Option (Except String Json))
    (env : Response) (d : Json) (t : T)
    (hb : bodyMarshalOk body = true)
    (hcode : env.Code = some 0) (hd : env.Data = some d) (hdec : decodeData d = .ok t) :
    DoGet T decodeData c path params (.envelope env) = some (.ok t) ∧
    DoPost T decodeData c path body (.envelope env) = some (.ok t) := by
  obtain ⟨oc, om, orid, od⟩ := env
  simp only at hcode hd
  subst hcode
  subst hd
  constructor
  · simp only [DoGet, Client.Get, doRequest]
    rw [if_neg (by simp : ¬ (0 : Int) ≠ 0)]
    simp [hdec]
  · rcases body with - | b
    · simp only [DoPost, Client.Post, doRequest]
      rw [if_neg (by simp : ¬ (0 : Int) ≠ 0)]
      simp [hdec]
    · rcases b with e | j
      · simp [bodyMarshalOk] at hb
      · simp only [DoPost, Client.Post, doRequest]
        rw [if_neg (by simp : ¬ (0 : Int) ≠ 0)]
        simp [hdec]

theorem doGet_doPost_return_decoded_data_witness :
    DoGet (List String) decodeStringList clientFixture "/test/path" Values.empty
        (.envelope { Code := some 0, Message := some "Success", RequestID := some "r1",
                     Data := some (.arr [.str "x", .str "y"]) }) =
      some (.ok ["x", "y"]) ∧
    DoPost (List String) decodeStringList clientFixture "/test/path" (some (.ok (.str "b")))
        (.envelope { Code := some 0, Message := some "Success", RequestID := some "r1",
                     Data := some (.arr [.str "x", .str "y"]) }) =
      some (.ok ["x", "y"]) := by
  have h := doGet_doPost_return_decoded_data (List String) decodeStringList clientFixture
      "/test/path" Values.empty (some (.ok (.str "b")))
      { Code := some 0, Message := some "Success", RequestID := some "r1",
        Data := some (.arr [.str "x", .str "y"]) }
      (.arr [.str "x", .str "y"]) ["x", "y"] rfl rfl rfl rfl
  exact h

/-- C7: no client method mutates client-owned state — after any call to
`Get`, `Post`, `Put` or `Delete` the client value (base URL, access
token, HTTP transport) is exactly the one the call started with. -/
theorem client_methods_preserve_client (c : Client) (path : String) (qp : Values)
    (body : Option (Except String Json)) (wire : WireResult) :
    (Client.Get c path qp wire).1 = c ∧
    (Client.Post c path qp body wire).1 = c ∧
    (Client.Put c path qp body wire).1 = c ∧
    (Client.Delete c path qp wire).1 = c :=
  ⟨doRequest_fst c "GET" path qp none wire,
   doRequest_fst c "POST" path qp body wire,
   doRequest_fst c "PUT" path qp body wire,
   doRequest_fst c "DELETE" path qp none wire⟩

/-- C8: `NewClient` defaults the base URL to the production host unless
the sandbox environment toggle equals the string `true`, and installs
the default 30-second-timeout HTTP client; `NewClientWithConfig`
substitutes the production base URL for an empty override and the
default HTTP client for a nil override, keeping any other supplied
value. -/
theorem client_construction_defaults (getenv : String → String)
    (token baseURL : String) (hc : HTTPClient) :
    (getenv "TIKTOK_AD_IS_SANDBOX" ≠ "true" →
       NewClient getenv token =
         { baseURL := productionBaseURL, httpClient := defaultHTTPClient,
           accessToken := token }) ∧
    (getenv "TIKTOK_AD_IS_SANDBOX" = "true" →
       NewClient getenv token =
         { baseURL := sandboxBaseURL, httpClient := defaultHTTPClient,
           accessToken := token }) ∧
    defaultHTTPClient.TimeoutNanos = 30 * 1000000000 ∧
    (NewClientWithConfig token "" none =
       { baseURL := productionBaseURL, httpClient := defaultHTTPClient,
         accessToken := token }) ∧
    (NewClientWithConfig token "" (some hc) =
       { baseURL := productionBaseURL, httpClient := hc, accessToken := token }) ∧
    (baseURL ≠ "" →
       NewClientWithConfig token baseURL none =
         { baseURL := baseURL, httpClient := defaultHTTPClient, accessToken := token }) ∧
    (baseURL ≠ "" →
       NewClientWithConfig token baseURL (some hc) =
         { baseURL := baseURL, httpClient := hc, accessToken := token }) := by
  refine ⟨?_, ?_, rfl, rfl, rfl, ?_, ?_⟩
  · intro h
    simp only [NewClient]
    rw [if_neg h]
  · intro h
    simp only [NewClient]
    rw [if_pos h]
  · intro h
    simp only [NewClientWithConfig]
    rw [if_neg h]
  · intro h
    simp only [NewClientWithConfig]
    rw [if_neg h]

theorem client_construction_defaults_witness :
    NewClient (fun _ => "") "tok" =
      { baseURL := productionBaseURL, httpClient := defaultHTTPClient,
        accessToken := "tok" } ∧
    NewClient (fun v => if v = "TIKTOK_AD_IS_SANDBOX" then "true" else "") "tok" =
      { baseURL := sandboxBaseURL, httpClient := defaultHTTPClient,
        accessToken := "tok" } ∧
    NewClientWithConfig "tok" "https://custom-url.test" (some { TimeoutNanos := 5 }) =
      { baseURL := "https://custom-url.test", httpClient := { TimeoutNanos := 5 },
        accessToken := "tok" } := by
  have h1 := client_construction_defaults (fun _ => "") "tok" "https://custom-url.test"
      { TimeoutNanos := 5 }
  have h2 := client_construction_defaults
      (fun v => if v = "TIKTOK_AD_IS_SANDBOX" then "true" else "") "tok"
      "https://custom-url.test" { TimeoutNanos := 5 }
  exact ⟨h1.1 (by decide), h2.2.1 (by decide), h1.2.2.2.2.2.2 (by decide)⟩

theorem parseHexDigit_hexDigit : ∀ n, n < 16 → parseHexDigit (hexDigit n) = some n := by
  decide

theorem escapeChar_length_pos (c : Char) : 1 ≤ (escapeChar c).length := by
  unfold escapeChar
  split_ifs <;> simp

theorem escape_flatten_length (cs : List Char) :
    cs.length ≤ ((cs.map escapeChar).flatten).length := by
  induction cs with
  | nil => simp
  | cons c cs ih =>
      simp only [List.map_cons, List.flatten_cons, List.length_append, List.length_cons]
      have := escapeChar_length_pos c
      omega

theorem parseStringBody_unicode (f : Nat) (d1 d2 d3 d4 : Char) (n1 n2 n3 n4 : Nat)
    (h1 : parseHexDigit d1 = some n1) (h2 : parseHexDigit d2 = some n2)
    (h3 : parseHexDigit d3 = some n3) (h4 : parseHexDigit d4 = some n4)
    (rest : List Char) :
    parseStringBody (f + 1) ('\\' :: 'u' :: d1 :: d2 :: d3 :: d4 :: rest) =
      (parseStringBody f rest).map
        (fun r => (Char.ofNat (n1 * 4096 + n2 * 256 + n3 * 16 + n4) :: r.1, r.2)) := by
  simp [parseStringBody, h1, h2, h3, h4]

theorem parseStringBody_escape (cs : List Char) : ∀ (fuel : Nat) (rest : List Char),
    cs.length + 1 ≤ fuel →
    parseStringBody fuel ((cs.map escapeChar).flatten ++ '"' :: rest) = some (cs, rest) := by
  induction cs with
  | nil =>
      intro fuel rest hf
      match fuel, hf with
      | f + 1, _ => rfl
  | cons c cs ih =>
      intro fuel rest hf
      match fuel, hf with
      | f + 1, hf =>
        have hf2 : cs.length + 1 ≤ f := by
          simp only [List.length_cons] at hf
          omega
        have ihf := ih f rest hf2
        simp only [List.map_cons, List.flatten_cons, List.append_assoc]
        by_cases h1 : c = '"'
        · subst h1
          simp [escapeChar, parseStringBody, ihf]
        · by_cases h2 : c = '\\'
          · subst h2
            simp [escapeChar, parseStringBody, ihf]
          · by_cases h3 : c = '<' ∨ c = '>' ∨ c = '&'
            · have ht : c.toNat < 256 := by
                rcases h3 with h | h | h <;> subst h <;> decide
              have hhi : c.toNat / 16 < 16 := by omega
              have hlo : c.toNat % 16 < 16 := by omega
              simp only [escapeChar, if_neg h1, if_neg h2, if_pos h3]
              simp only [List.cons_append, List.nil_append]
              rw [parseStringBody_unicode f '0' '0' _ _ 0 0 _ _ rfl rfl
                  (parseHexDigit_hexDigit _ hhi) (parseHexDigit_hexDigit _ hlo)]
              rw [ihf]
              have ha : 0 * 4096 + 0 * 256 + c.toNat / 16 * 16 + c.toNat % 16 = c.toNat := by
                omega
              rw [ha, Char.ofNat_toNat]
              rfl
            · by_cases h4 : c = '\n'
              · subst h4
                simp [escapeChar, parseStringBody, ihf]
              · by_cases h5 : c = '\r'
                · subst h5
                  simp [escapeChar, parseStringBody, ihf]
                · by_cases h6 : c = '\t'
                  · subst h6
                    simp [escapeChar, parseStringBody, ihf]
                  · by_cases h7 : c.toNat < 32
                    · have hhi : c.toNat / 16 < 16 := by omega
                      have hlo : c.toNat % 16 < 16 := by omega
                      simp only [escapeChar, if_neg h1, if_neg h2, if_neg h3, if_neg h4,
                        if_neg h5, if_neg h6, if_pos h7]
                      simp only [List.cons_append, List.nil_append]
                      rw [parseStringBody_unicode f '0' '0' _ _ 0 0 _ _ rfl rfl
                          (parseHexDigit_hexDigit _ hhi) (parseHexDigit_hexDigit _ hlo)]
                      rw [ihf]
                      have ha : 0 * 4096 + 0 * 256 + c.toNat / 16 * 16 + c.toNat % 16 = c.toNat := by
                        omega
                      rw [ha, Char.ofNat_toNat]
                      rfl
                    · by_cases h8 : c.toNat = 8232 ∨ c.toNat = 8233
                      · have hlo : c.toNat % 16 < 16 := by omega
                        simp only [escapeChar, if_neg h1, if_neg h2, if_neg h3, if_neg h4,
                          if_neg h5, if_neg h6, if_neg h7, if_pos h8]
                        simp only [List.cons_append, List.nil_append]
                        rw [parseStringBody_unicode f '2' '0' '2' _ 2 0 2 _ rfl rfl rfl
                            (parseHexDigit_hexDigit _ hlo)]
                        rw [ihf]
                        have ha : 2 * 4096 + 0 * 256 + 2 * 16 + c.toNat % 16 = c.toNat := by
                          omega
                        rw [ha, Char.ofNat_toNat]
                        rfl
                      · simp only [escapeChar, if_neg h1, if_neg h2, if_neg h3, if_neg h4,
                          if_neg h5, if_neg h6, if_neg h7, if_neg h8]
                        simp only [List.append_eq, List.cons_append, List.nil_append,
                          parseStringBody, if_neg h1, if_neg h2]
                        rw [ihf]
                        rfl

theorem data_quote : ("\"" : String).data = ['"'] := rfl

theorem data_comma : ("," : String).data = [','] := rfl

theorem data_colon : (":" : String).data = [':'] := rfl

theorem data_lbrack : ("[" : String).data = ['['] := rfl

theorem data_rbrack : ("]" : String).data = [']'] := rfl

theorem data_lbrace : ("\x7b" : String).data = ['\x7b'] := rfl

theorem data_rbrace : ("\x7d" : String).data = ['\x7d'] := rfl

theorem encodeGoString_data (s : String) :
    (encodeGoString s).data = '"' :: ((s.data.map escapeChar).flatten ++ ['"']) := by
  simp [encodeGoString, String.data_append, data_quote]

theorem parseValueAux_str (fuel : Nat) (s : String) (rest : List Char) :
    parseValueAux (fuel + 1) ((encodeGoString s).data ++ rest) = some (.str s, rest) := by
  rw [encodeGoString_data]
  simp only [List.cons_append, List.append_assoc, List.singleton_append, List.nil_append]
  simp only [parseValueAux, if_true]
  rw [parseStringBody_escape s.data _ rest
      (by
        have := escape_flatten_length s.data
        simp only [List.length_append, List.length_cons]
        omega)]
  rfl

theorem parseItemsAux_strs (xs : List Json) : ∀ (fuel : Nat) (rest : List Char),
    (∀ x ∈ xs, ∃ s, x = Json.str s) → xs ≠ [] → xs.length + 1 ≤ fuel →
    parseItemsAux fuel ((encodeJsonItems xs).data ++ ']' :: rest) = some (xs, rest) := by
  induction xs with
  | nil => intro fuel rest hall hne hf; exact absurd rfl hne
  | cons x xs ih =>
      intro fuel rest hall hne hf
      obtain ⟨s, hx⟩ := hall x (by simp)
      subst hx
      match fuel, hf with
      | f + 1, hf =>
        cases xs with
        | nil =>
            simp only [encodeJsonItems, encodeJson]
            simp only [parseItemsAux]
            match f, (by simp at hf; omega : 1 ≤ f) with
            | f' + 1, _ =>
              rw [parseValueAux_str f' s (']' :: rest)]
              rfl
        | cons y ys =>
            simp only [encodeJsonItems, encodeJson, String.data_append, data_comma,
              List.append_assoc, List.singleton_append, List.cons_append, List.nil_append]
            simp only [parseItemsAux]
            match f, (by simp at hf; omega : 1 ≤ f) with
            | f' + 1, _ =>
              have hf4 : (y :: ys).length + 1 ≤ f' + 1 := by
                simp at hf ⊢
                omega
              rw [parseValueAux_str f' s (',' :: ((encodeJsonItems (y :: ys)).data ++ ']' :: rest))]
              have hih := ih (f' + 1) rest (fun z hz => hall z (by simp [hz])) (by simp) hf4
              simp [hih]

theorem parseValueAux_arr_strs (xs : List Json) (fuel : Nat) (rest : List Char)
    (hall : ∀ x ∈ xs, ∃ s, x = Json.str s) (hf : xs.length + 2 ≤ fuel) :
    parseValueAux fuel ((encodeJson (.arr xs)).data ++ rest) = some (.arr xs, rest) := by
  match fuel, hf with
  | f + 1, hf =>
    simp only [encodeJson, String.data_append, data_lbrack, data_rbrack,
      List.append_assoc, List.singleton_append, List.cons_append, List.nil_append]
    cases xs with
    | nil =>
        simp [encodeJsonItems, parseValueAux]
    | cons x xs2 =>
        obtain ⟨s, hx⟩ := hall x (by simp)
        subst hx
        have hsuf : ∃ suf, (encodeJsonItems (Json.str s :: xs2)).data = '"' :: suf := by
          cases xs2 <;>
            simp [encodeJsonItems, encodeJson, encodeGoString_data, String.data_append]
        obtain ⟨suf, hsuf⟩ := hsuf
        have hitems := parseItemsAux_strs (Json.str s :: xs2) f rest hall (by simp)
            (by simp at hf ⊢; omega)
        rw [hsuf] at hitems ⊢
        simp only [List.cons_append] at hitems ⊢
        simp only [parseValueAux]
        simp [hitems]

theorem parseValueAux_flat (v : Json) (hv : FlatVal v) (fuel : Nat) (rest : List Char)
    (hf : flatWeight v ≤ fuel) :
    parseValueAux fuel ((encodeJson v).data ++ rest) = some (v, rest) := by
  cases v with
  | str s =>
      match fuel, (by simp [flatWeight] at hf; omega : 1 ≤ fuel) with
      | f + 1, _ =>
        simp only [encodeJson]
        exact parseValueAux_str f s rest
  | arr xs =>
      exact parseValueAux_arr_strs xs fuel rest hv (by simpa [flatWeight] using hf)
  | null => exact absurd hv (by simp [FlatVal])
  | bool b => exact absurd hv (by simp [FlatVal])
  | num n => exact absurd hv (by simp [FlatVal])
  | obj fs => exact absurd hv (by simp [FlatVal])

theorem parseFieldsAux_flat (fields : List (String × Json)) : ∀ (fuel : Nat) (rest : List Char),
    (∀ kv ∈ fields, FlatVal kv.2) → fields ≠ [] → fieldsWeight fields ≤ fuel →
    parseFieldsAux fuel ((encodeJsonFields fields).data ++ '\x7d' :: rest) = some (fields, rest) := by
  induction fields with
  | nil => intro fuel rest hall hne hf; exact absurd rfl hne
  | cons kv fs ih =>
      intro fuel rest hall hne hf
      obtain ⟨k, v⟩ := kv
      have hv : FlatVal v := hall (k, v) (by simp)
      match fuel, (by simp [fieldsWeight] at hf; omega : 1 ≤ fuel) with
      | f + 1, _ =>
        have hwv : flatWeight v ≤ f := by
          simp [fieldsWeight] at hf
          omega
        cases fs with
        | nil =>
            simp only [encodeJsonFields, String.data_append, data_colon, encodeGoString_data,
              List.append_assoc, List.singleton_append, List.cons_append, List.nil_append]
            simp only [parseFieldsAux]
            rw [parseStringBody_escape k.data _ _
                (by
                  have := escape_flatten_length k.data
                  simp only [List.length_append, List.length_cons]
                  omega)]
            have hval := parseValueAux_flat v hv f ('\x7d' :: rest) hwv
            simp [hval]
        | cons g fs2 =>
            simp only [encodeJsonFields, String.data_append, data_colon, data_comma,
              encodeGoString_data, List.append_assoc, List.singleton_append,
              List.cons_append, List.nil_append]
            simp only [parseFieldsAux]
            rw [parseStringBody_escape k.data _ _
                (by
                  have := escape_flatten_length k.data
                  simp only [List.length_append, List.length_cons]
                  omega)]
            have hval := parseValueAux_flat v hv f
                (',' :: ((encodeJsonFields (g :: fs2)).data ++ '\x7d' :: rest)) hwv
            have hrec := ih f rest (fun z hz => hall z (by simp [hz])) (by simp)
                (by simp [fieldsWeight] at hf ⊢; omega)
            simp [hval, hrec]

theorem parseValueAux_obj_flat (fields : List (String × Json)) (fuel : Nat) (rest : List Char)
    (hall : ∀ kv ∈ fields, FlatVal kv.2) (hf : fieldsWeight fields + 1 ≤ fuel) :
    parseValueAux fuel ((encodeJson (.obj fields)).data ++ rest) = some (.obj fields, rest) := by
  match fuel, hf with
  | f + 1, hf =>
    simp only [encodeJson, String.data_append, data_lbrace, data_rbrace, List.append_assoc,
      List.singleton_append, List.cons_append, List.nil_append]
    cases fields with
    | nil => simp [encodeJsonFields, parseValueAux]
    | cons kv fs =>
        obtain ⟨k, v⟩ := kv
        have hsuf : ∃ suf, (encodeJsonFields ((k, v) :: fs)).data = '"' :: suf := by
          cases fs <;>
            simp [encodeJsonFields, encodeGoString_data, String.data_append]
        obtain ⟨suf, hsuf⟩ := hsuf
        have hfields := parseFieldsAux_flat ((k, v) :: fs) f rest hall (by simp) (by omega)
        rw [hsuf] at hfields ⊢
        simp only [List.cons_append] at hfields ⊢
        simp only [parseValueAux]
        simp [hfields]

theorem len_lbrace : ("\x7b" : String).length = 1 := rfl

theorem len_rbrace : ("\x7d" : String).length = 1 := rfl

theorem len_quote : ("\"" : String).length = 1 := rfl

theorem len_lbrack : ("[" : String).length = 1 := rfl

theorem len_rbrack : ("]" : String).length = 1 := rfl

theorem encodeGoString_length (s : String) : 2 ≤ (encodeGoString s).length := by
  simp only [encodeGoString, String.length_append, String.length_mk, len_quote]
  omega

theorem encodeJsonItems_strs_length (xs : List Json) :
    (∀ x ∈ xs, ∃ s, x = Json.str s) → xs.length ≤ (encodeJsonItems xs).length := by
  induction xs with
  | nil => intro hall; simp [encodeJsonItems]
  | cons x xs2 ih =>
      intro hall
      obtain ⟨s, hx⟩ := hall x (by simp)
      subst hx
      cases xs2 with
      | nil =>
          simp only [encodeJsonItems, encodeJson, List.length_cons, List.length_nil]
          have := encodeGoString_length s
          omega
      | cons y ys =>
          have hrec := ih (fun z hz => hall z (by simp [hz]))
          simp only [encodeJsonItems, encodeJson, String.length_append, List.length_cons] at hrec ⊢
          have := encodeGoString_length s
          omega

theorem encodeJson_flat_length (v : Json) (hv : FlatVal v) :
    flatWeight v ≤ (encodeJson v).length := by
  cases v with
  | str s =>
      simp only [flatWeight, encodeJson]
      exact encodeGoString_length s
  | arr xs =>
      have := encodeJsonItems_strs_length xs hv
      simp only [flatWeight, encodeJson, String.length_append, len_lbrack, len_rbrack]
      omega
  | null => exact absurd hv (by simp [FlatVal])
  | bool b => exact absurd hv (by simp [FlatVal])
  | num n => exact absurd hv (by simp [FlatVal])
  | obj fs => exact absurd hv (by simp [FlatVal])

theorem encodeJsonFields_flat_length (fields : List (String × Json)) :
    (∀ kv ∈ fields, FlatVal kv.2) →
    fieldsWeight fields ≤ (encodeJsonFields fields).length + 1 := by
  induction fields with
  | nil => intro hall; simp [fieldsWeight, encodeJsonFields]
  | cons kv fs ih =>
      intro hall
      obtain ⟨k, v⟩ := kv
      have hv : FlatVal v := hall (k, v) (by simp)
      have hkey := encodeGoString_length k
      have hval := encodeJson_flat_length v hv
      cases fs with
      | nil =>
          simp only [fieldsWeight, encodeJsonFields, String.length_append]
          omega
      | cons g fs2 =>
          have hrec := ih (fun z hz => hall z (by simp [hz]))
          simp only [fieldsWeight, encodeJsonFields, String.length_append] at hrec ⊢
          omega

theorem parseJson_encodeJson_obj_flat (fields : List (String × Json))
    (hall : ∀ kv ∈ fields, FlatVal kv.2) :
    parseJson (encodeJson (.obj fields)) = some (.obj fields) := by
  unfold parseJson
  have hlen : fieldsWeight fields + 1 ≤ (encodeJson (.obj fields)).length + 1 := by
    have h1 := encodeJsonFields_flat_length fields hall
    simp only [encodeJson, String.length_append, len_lbrace, len_rbrace]
    omega
  have h := parseValueAux_obj_flat fields ((encodeJson (.obj fields)).length + 1) [] hall hlen
  rw [List.append_nil] at h
  rw [h]

theorem flatval_optStrField (key : String) (o : Option String) :
    ∀ kv ∈ optStrField key o, FlatVal kv.2 := by
  intro kv hkv
  cases o with
  | none => cases hkv
  | some s =>
      simp only [optStrField, List.mem_singleton] at hkv
      subst hkv
      simp [FlatVal]

theorem flatval_idsField (ids : List String) :
    ∀ kv ∈ (if ids.length = 0 then ([] : List (String × Json))
            else [("campaign_ids", Json.arr (ids.map Json.str))]), FlatVal kv.2 := by
  intro kv hkv
  by_cases hl : ids.length = 0
  · rw [if_pos hl] at hkv
    cases hkv
  · rw [if_neg hl] at hkv
    simp only [List.mem_singleton] at hkv
    subst hkv
    simp only [FlatVal]
    intro x hx
    rw [List.mem_map] at hx
    obtain ⟨s, -, hs⟩ := hx
    exact ⟨s, hs.symm⟩

theorem flatval_filteringFields (f : Filtering) : ∀ kv ∈ filteringFields f, FlatVal kv.2 := by
  intro kv hkv
  unfold filteringFields at hkv
  simp only [List.mem_append] at hkv
  rcases hkv with ((((((h | h) | h) | h) | h) | h) | h)
  · exact flatval_idsField f.CampaignIDs kv h
  · exact flatval_optStrField _ _ kv h
  · exact flatval_optStrField _ _ kv h
  · exact flatval_optStrField _ _ kv h
  · exact flatval_optStrField _ _ kv h
  · exact flatval_optStrField _ _ kv h
  · exact flatval_optStrField _ _ kv h

theorem parseJson_encode_filtering (f : Filtering) :
    parseJson (encodeJson (filteringToJson f)) = some (filteringToJson f) := by
  unfold filteringToJson
  exact parseJson_encodeJson_obj_flat (filteringFields f) (flatval_filteringFields f)

theorem decodeStringList_cons_str (x : String) (xs : List String) :
    decodeStringList (Json.arr (Json.str x :: List.map Json.str xs)) = Except.ok (x :: xs) :=
  decodeStringList_map_str (x :: xs)

theorem except_ok_bind {ε α β : Type} (a : α) (g : α → Except ε β) :
    (Except.ok a : Except ε α) >>= g = g a := rfl

set_option maxHeartbeats 3000000 in
theorem decodeFiltering_filteringToJson (f : Filtering) :
    decodeFiltering (filteringToJson f) = Except.ok f := by
  obtain ⟨ids, name, objective, prim, sec, tmin, tmax⟩ := f
  rcases ids with - | ⟨i, irest⟩ <;>
    rcases name with - | n <;> rcases objective with - | o <;> rcases prim with - | p <;>
    rcases sec with - | s <;> rcases tmin with - | u <;> rcases tmax with - | w <;>
      simp [filteringToJson, decodeFiltering, optStrField, jsonField, List.find?,
        decodeOptStrField, decodeStringList_cons_str, except_ok_bind]

/-- C6: encoding a campaign `Filtering` value into its single
JSON-string query parameter via `AddJSONParam` sets the parameter to
the rendered JSON document of the struct; JSON-parsing that parameter
text back (the mock-server side) recovers the document, and decoding
the document into the struct type reconstructs a value field-for-field
equal to the original. -/
theorem filtering_query_param_roundtrip (f : Filtering) (params : Values) :
    AddJSONParam params "filtering" (.other (.ok (filteringToJson f))) =
      .ok (params.set "filtering" (encodeJson (filteringToJson f))) ∧
    Values.get (params.set "filtering" (encodeJson (filteringToJson f))) "filtering" =
      some (encodeJson (filteringToJson f)) ∧
    parseJson (encodeJson (filteringToJson f)) = some (filteringToJson f) ∧
    decodeFiltering (filteringToJson f) = Except.ok f := by
  have hne : encodeJson (filteringToJson f) ≠ "null" := by
    unfold filteringToJson
    exact encodeJson_obj_ne_null _
  refine ⟨?_, values_get_set_self _ _ _, parseJson_encode_filtering f,
    decodeFiltering_filteringToJson f⟩
  simp only [AddJSONParam]
  rw [if_neg hne]

/-- C10: the file package validates ID counts locally, before anything
depends on the network: an empty or over-60 `VideoIDs` slice (empty or
over-100 `ImageIDs`) yields the fixed validation error for every
possible wire outcome, while an in-bounds request proceeds to the
`DoGet` call on the file path with `advertiser_id` and the JSON-array
ID parameter, raising no local validation error. -/
theorem file_id_count_validation (decodeV : Json → Except String GetVideoInfoResponse)
    (decodeI : Json → Except String GetImageInfoResponse) (c : Client)
    (reqV : GetVideoInfoRequest) (reqI : GetImageInfoRequest) (wire : WireResult) :
    (reqV.VideoIDs = [] → ∀ w, GetVideoInfo decodeV c reqV w =
       some (.error (.wrapped "video_ids cannot be empty"))) ∧
    (reqV.VideoIDs.length > 60 → ∀ w, GetVideoInfo decodeV c reqV w =
       some (.error (.wrapped "video_ids cannot exceed 60 items"))) ∧
    (1 ≤ reqV.VideoIDs.length → reqV.VideoIDs.length ≤ 60 →
       GetVideoInfo decodeV c reqV wire =
         match DoGet GetVideoInfoResponse decodeV c "/open_api/v1.3/file/video/ad/info/"
             (Values.set (Values.set Values.empty "advertiser_id" reqV.AdvertiserID)
               "video_ids" (encodeJson (.arr (reqV.VideoIDs.map .str)))) wire with
         | none => none
         | some (.error e) =>
             some (.error (.wrapped ("failed to get video info: " ++ GoError.errorMessage e)))
         | some (.ok resp) => some (.ok resp)) ∧
    (reqI.ImageIDs = [] → ∀ w, GetImageInfo decodeI c reqI w =
       some (.error (.wrapped "image_ids cannot be empty"))) ∧
    (reqI.ImageIDs.length > 100 → ∀ w, GetImageInfo decodeI c reqI w =
       some (.error (.wrapped "image_ids cannot exceed 100 items"))) ∧
    (1 ≤ reqI.ImageIDs.length → reqI.ImageIDs.length ≤ 100 →
       GetImageInfo decodeI c reqI wire =
         match DoGet GetImageInfoResponse decodeI c "/open_api/v1.3/file/image/ad/info/"
             (Values.set (Values.set Values.empty "advertiser_id" reqI.AdvertiserID)
               "image_ids" (encodeJson (.arr (reqI.ImageIDs.map .str)))) wire with
         | none => none
         | some (.error e) =>
             some (.error (.wrapped ("failed to get image info: " ++ GoError.errorMessage e)))
         | some (.ok resp) => some (.ok resp)) := by
  refine ⟨?_, ?_, ?_, ?_, ?_, ?_⟩
  · intro h w
    unfold GetVideoInfo
    rw [if_pos (by rw [h]; rfl)]
  · intro h w
    unfold GetVideoInfo
    rw [if_neg (by omega), if_pos h]
  · intro h1 h60
    have hne : reqV.VideoIDs ≠ [] := by
      intro hnil
      rw [hnil] at h1
      exact absurd h1 (by simp)
    unfold GetVideoInfo
    rw [if_neg (by omega), if_neg (by omega)]
    simp only [addStringSlice_nonempty _ _ _ hne]
  · intro h w
    unfold GetImageInfo
    rw [if_pos (by rw [h]; rfl)]
  · intro h w
    unfold GetImageInfo
    rw [if_neg (by omega), if_pos h]
  · intro h1 h100
    have hne : reqI.ImageIDs ≠ [] := by
      intro hnil
      rw [hnil] at h1
      exact absurd h1 (by simp)
    unfold GetImageInfo
    rw [if_neg (by omega), if_neg (by omega)]
    simp only [addStringSlice_nonempty _ _ _ hne]

theorem file_id_count_validation_witness :
    GetVideoInfo (fun _ => .ok { List := [] }) clientFixture
        { AdvertiserID := "123456", VideoIDs := [] } (.transportError "down") =
      some (.error (.wrapped "video_ids cannot be empty")) ∧
    GetVideoInfo (fun _ => .ok { List := [] }) clientFixture
        { AdvertiserID := "123456", VideoIDs := List.replicate 61 "v" } (.transportError "down") =
      some (.error (.wrapped "video_ids cannot exceed 60 items")) ∧
    GetVideoInfo (fun _ => .ok { List := [] }) clientFixture
        { AdvertiserID := "123456", VideoIDs := ["v1", "v2"] }
        (.envelope { Code := some 0, Message := some "OK", RequestID := some "r",
                     Data := some (.arr []) }) =
      some (.ok { List := [] }) ∧
    GetImageInfo (fun _ => .ok { List := [] }) clientFixture
        { AdvertiserID := "123456", ImageIDs := [] } (.transportError "down") =
      some (.error (.wrapped "image_ids cannot be empty")) ∧
    GetImageInfo (fun _ => .ok { List := [] }) clientFixture
        { AdvertiserID := "123456", ImageIDs := List.replicate 101 "i" } (.transportError "down") =
      some (.error (.wrapped "image_ids cannot exceed 100 items")) ∧
    GetImageInfo (fun _ => .ok { List := [] }) clientFixture
        { AdvertiserID := "123456", ImageIDs := ["i1"] }
        (.envelope { Code := some 0, Message := some "OK", RequestID := some "r",
                     Data := some (.arr []) }) =
      some (.ok { List := [] }) := by
  have hV := file_id_count_validation (fun _ => .ok { List := [] }) (fun _ => .ok { List := [] })
      clientFixture { AdvertiserID := "123456", VideoIDs := [] }
      { AdvertiserID := "123456", ImageIDs := [] } (.transportError "down")
  have hV61 := file_id_count_validation (fun _ => .ok { List := [] }) (fun _ => .ok { List := [] })
      clientFixture { AdvertiserID := "123456", VideoIDs := List.replicate 61 "v" }
      { AdvertiserID := "123456", ImageIDs := List.replicate 101 "i" } (.transportError "down")
  have hVin := file_id_count_validation (fun _ => .ok { List := [] }) (fun _ => .ok { List := [] })
      clientFixture { AdvertiserID := "123456", VideoIDs := ["v1", "v2"] }
      { AdvertiserID := "123456", ImageIDs := ["i1"] }
      (.envelope { Code := some 0, Message := some "OK", RequestID := some "r",
                   Data := some (.arr []) })
  refine ⟨hV.1 rfl _, hV61.2.1 (by decide) _, ?_, hV.2.2.2.1 rfl _,
          hV61.2.2.2.2.1 (by decide) _, ?_⟩
  · rw [hVin.2.2.1 (by decide) (by decide)]
    rfl
  · rw [hVin.2.2.2.2.2 (by decide) (by decide)]
    rfl

end TikTokSDK
